import Mathlib

/-!
Verification development for the bountybot repository.

The Python modules under scrutiny are shallowly embedded below:
  - scanner/intelligence.py   : finding classification and insight tags
  - analyzer/chainsynthesizer.py : attack-path synthesis
  - tools/runner.py           : the tool orchestrator (run_tool / run_all_tools)
  - scanner/nuclei_runner.py  : the tolerant stdout parse loop of run_nuclei_scan

Python strings are modelled as Lean String, with the handful of string
operations the code uses (lower-casing, substring test, strip, startswith,
join) defined over the underlying character lists so that all definitions
evaluate by kernel reduction.  Python dicts holding finding records are
modelled as structures whose Option-typed fields capture absent keys;
dict.get with a default becomes Option.getD.  Python sets of keywords and
tags are modelled as lists: the code only ever tests membership and
non-empty intersection, for which duplicates and order are irrelevant.
-/

/-- Python str.lower restricted to the character-wise case mapping. -/
def toLowerStr (s : String) : String := ⟨s.data.map Char.toLower⟩

/-- Boolean substring test on character lists: needle occurs inside haystack. -/
def infixOfB (needle : List Char) : List Char → Bool
  | [] => needle.isEmpty
  | c :: rest => needle.isPrefixOf (c :: rest) || infixOfB needle rest

/-- Python membership test for strings: sub in s. -/
def strContains (s sub : String) : Bool := infixOfB sub.data s.data

/-- Python str.strip: drop whitespace from both ends. -/
def stripStr (s : String) : String :=
  ⟨((s.data.dropWhile Char.isWhitespace).reverse.dropWhile Char.isWhitespace).reverse⟩

/-- Python str.startswith. -/
def startsWithStr (s p : String) : Bool := p.data.isPrefixOf s.data

/-- Python " ".join. -/
def joinSpace : List String → String
  | [] => ""
  | [s] => s
  | s :: rest => s ++ " " ++ joinSpace rest

theorem infixOfB_iff (n h : List Char) : infixOfB n h = true ↔ n <:+: h := by
  induction h with
  | nil => simp [infixOfB, List.isEmpty_iff]
  | cons c rest ih =>
    simp [infixOfB, ih, List.infix_cons_iff, List.isPrefixOf_iff_prefix, or_comm]

theorem strContains_trans {s a b : String} (hab : strContains a b = true)
    (hsa : strContains s a = true) : strContains s b = true := by
  rw [strContains, infixOfB_iff] at *
  exact hab.trans hsa

theorem strContains_ne_empty {s sub : String} (hne : sub.data ≠ [])
    (h : strContains s sub = true) : s ≠ "" := by
  rw [strContains, infixOfB_iff] at h
  intro hs
  subst hs
  have : sub.data = [] := by
    have hsub : sub.data.Sublist "".data := h.sublist
    simpa using List.eq_nil_of_sublist_nil hsub
  exact hne this

/-- Data model for one raw finding record (a Python dict).  The info field
mirrors the nested info dict; Option captures an absent key. -/
structure Info where
  name : Option String := none
  description : Option String := none
  reference : Option String := none
  severity : Option String := none
  tags : List String := []
deriving DecidableEq

/-- A scanner finding record.  templateId models the template-id key,
matchedAt the matched-at key, arcanumRole the arcanum-role annotation the
pipeline writes before synthesis, endpointIdx the endpoint-idx field that
synthesize_attack_paths writes into each record. -/
structure Finding where
  templateId : Option String := none
  matchedAt : Option String := none
  info : Option Info := none
  tags : List String := []
  arcanumRole : Option String := none
  endpointIdx : Option Nat := none
deriving DecidableEq

/-- ROLE_PATTERNS from intelligence.py (keyword sets as lists). -/
def ROLE_PATTERNS : List (String × List String) :=
  [ ("File Upload",
      ["upload", "multipart", "file upload", "image upload", "avatar",
       "attachment", "media upload"]),
    ("Login/Auth Endpoint",
      ["login", "sign-in", "signin", "authenticate", "authentication",
       "oauth", "sso", "token", "password", "session"]),
    ("Admin Panel",
      ["admin", "dashboard", "control panel", "console", "cms", "backoffice"]),
    ("Debug/Logging",
      ["debug", "trace", "log", "logging", "status page", "metrics",
       "prometheus"]) ]

/-- INSIGHT_PATTERNS from intelligence.py. -/
def INSIGHT_PATTERNS : List (List String × String) :=
  [ (["sqli", "sql injection", "blind-sql"], "SQLi Suspected"),
    (["xss", "cross-site scripting"], "XSS Exposure"),
    (["lfi", "rfi", "file inclusion", "directory traversal"], "File Disclosure Risk"),
    (["rce", "command-injection", "remote code execution"], "RCE Potential"),
    (["csrf", "cross-site request forgery"], "CSRF Vector"),
    (["ssrf", "request forgery"], "SSRF Potential"),
    (["open-redirect", "redirect"], "Open Redirect"),
    (["token", "cookie", "jwt"], "Session Token Exposure"),
    (["bucket", "s3", "storage"], "Storage Exposure"),
    (["debug", "stacktrace"], "Debug Information Leak") ]

/-- A candidate fragment contributes exactly when it is present and truthy. -/
def optFrag (o : Option String) : List String :=
  match o with
  | some s => if s = "" then [] else [s]
  | none => []

/-- collect_text from intelligence.py: collapse relevant fields and tags into
a lowercase blob plus a tag set (modelled as a list used only through
membership). -/
def collect_text (f : Finding) : String × List String :=
  let info := f.info.getD {}
  let fragments :=
    optFrag f.templateId ++ optFrag info.name ++ optFrag info.description ++
      optFrag f.matchedAt ++ optFrag info.reference
  let tagEntries := (info.tags ++ f.tags).filter (fun e => !(e == ""))
  (toLowerStr (joinSpace (fragments ++ tagEntries)), tagEntries.map toLowerStr)

/-- text_contains from intelligence.py: any keyword is a substring of the
blob, or the tag set intersects the keyword set. -/
def text_contains (text : String) (keywords : List String) (tags : List String) : Bool :=
  keywords.any (fun k => strContains text k) || tags.any (fun t => keywords.contains t)

/-- role_from_path from intelligence.py: fast-path role inference using just
the matched URL path. -/
def role_from_path (path : String) : Option String :=
  if path = "" then none
  else if strContains path "login" || strContains path "auth" then some "Login/Auth Endpoint"
  else if strContains path "admin" then some "Admin Panel"
  else if strContains path "upload" || strContains path "/image" then some "File Upload"
  else if strContains path "/basic-auth" then some "Auth Endpoint"
  else if strContains path "/status/" then some "Status Checker/API Gate"
  else none

/-- determine_endpoint_role from intelligence.py. -/
def determine_endpoint_role (f : Finding) : String :=
  let matched_at := toLowerStr (f.matchedAt.getD "")
  match role_from_path matched_at with
  | some r => r
  | none =>
    let tc := collect_text f
    match ROLE_PATTERNS.find? (fun p => text_contains tc.1 p.2 tc.2) with
    | some p => p.1
    | none =>
      if strContains tc.1 "api" || strContains tc.1 "graphql" then "API Endpoint"
      else if strContains tc.1 "database" || strContains tc.1 "sql" then "Database Service"
      else "Debug/Logging"

/-- The add helper inside infer_insights: append the label when absent. -/
def addLabel (insights : List String) (label : String) : List String :=
  if insights.contains label then insights else insights ++ [label]

/-- infer_insights from intelligence.py. -/
def infer_insights (template_id : Option String) (f : Finding) : List String :=
  let tc := collect_text f
  let info := f.info.getD {}
  let severity := toLowerStr (info.severity.getD "")
  let normalized_id := toLowerStr (template_id.getD "")
  let insights := INSIGHT_PATTERNS.foldl
    (fun acc p => if text_contains tc.1 p.1 tc.2 then addLabel acc p.2 else acc) []
  let insights :=
    if severity = "critical" ∨ severity = "high" then addLabel insights "High Priority"
    else if severity = "medium" then addLabel insights "Needs Review"
    else insights
  let insights :=
    if startsWithStr normalized_id "cve-" then addLabel insights "CVE Coverage"
    else insights
  match f.arcanumRole with
  | some role =>
    if role ≠ "" ∧ role ≠ "General Endpoint" then addLabel insights ("Sensitive Role: " ++ role)
    else insights
  | none => insights

/-- An attack path record produced by synthesize_attack_paths. -/
structure AttackPath where
  id : String
  name : String
  description : String
  steps : List Nat
  risk_score : Nat
deriving DecidableEq

/-- One bucket entry: (index, endpoint, display name), exactly the triples the
Python loop appends. -/
abbrev BucketEntry := Nat × String × String

/-- The five role buckets built by the first loop of synthesize_attack_paths. -/
structure Buckets where
  auth_endpoints : List BucketEntry := []
  uploads : List BucketEntry := []
  sqli_points : List BucketEntry := []
  exposed_admins : List BucketEntry := []
  debug_pages : List BucketEntry := []
deriving DecidableEq

/-- item.get of the arcanum-role key with default Unknown. -/
def bucket_role (f : Finding) : String := f.arcanumRole.getD "Unknown"

/-- item.get of the matched-at key with default empty string. -/
def bucket_endpoint (f : Finding) : String := f.matchedAt.getD ""

/-- item.get of info (default empty dict) then get of name (default Unnamed). -/
def bucket_name (f : Finding) : String := ((f.info.getD {}).name).getD "Unnamed"

/-- The first loop of synthesize_attack_paths: walk the findings with their
enumeration index and route each one through the if/elif chain.  The SQLi
test is the final elif branch, exactly as in the source. -/
def bucketizeAux : Nat → List Finding → Buckets
  | _, [] => {}
  | idx, f :: rest =>
    let b := bucketizeAux (idx + 1) rest
    let role := bucket_role f
    let endpoint := bucket_endpoint f
    let name := bucket_name f
    if role = "Login/Auth Endpoint" then
      { b with auth_endpoints := (idx, endpoint, name) :: b.auth_endpoints }
    else if role = "File Upload" then
      { b with uploads := (idx, endpoint, name) :: b.uploads }
    else if role = "Admin Panel" then
      { b with exposed_admins := (idx, endpoint, name) :: b.exposed_admins }
    else if role = "Debug/Logging" then
      { b with debug_pages := (idx, endpoint, name) :: b.debug_pages }
    else if strContains (toLowerStr name) "sql injection" || f.tags.contains "sqli" then
      { b with sqli_points := (idx, endpoint, name) :: b.sqli_points }
    else b

def bucketize (fs : List Finding) : Buckets := bucketizeAux 0 fs

/-- The in-place write scan_results of idx at endpoint-idx performed by the
same loop, modelled as the updated findings sequence. -/
def set_endpoint_indices : Nat → List Finding → List Finding
  | _, [] => []
  | idx, f :: rest => { f with endpointIdx := some idx } :: set_endpoint_indices (idx + 1) rest

/-- Build one path dict; cnt is the number of paths accumulated so far, so the
id is path_(cnt+1) as in the source. -/
def mk_path (cnt : Nat) (name description : String) (steps : List Nat) (risk : Nat) : AttackPath :=
  { id := "path_" ++ toString (cnt + 1), name := name, description := description,
    steps := steps, risk_score := risk }

/-- Rule A inner loop: one fixed upload paired against every auth endpoint. -/
def rule_a_inner (cnt : Nat) (u : BucketEntry) : List BucketEntry → List AttackPath
  | [] => []
  | a :: rest =>
    mk_path cnt "Web Shell via Weak Auth"
      ("A public file upload path at \x27" ++ u.2.1 ++
        "\x27 exists alongside weak authentication at \x27" ++ a.2.1 ++
        "\x27. An attacker leveraging the upload may establish persistent access and manipulate authenticated sessions.")
      [u.1, a.1] 90 :: rule_a_inner (cnt + 1) u rest

/-- Rule A: Cartesian product of the upload and auth buckets. -/
def rule_a (cnt : Nat) (auths : List BucketEntry) : List BucketEntry → List AttackPath
  | [] => []
  | u :: rest => rule_a_inner cnt u auths ++ rule_a (cnt + auths.length) auths rest

/-- Rule B: one path per debug page; combined is the debug entry followed by
every exposed admin, and the emptiness guard from the source is kept even
though combined always starts with the debug entry. -/
def rule_b (cnt : Nat) (admins : List BucketEntry) : List BucketEntry → List AttackPath
  | [] => []
  | d :: rest =>
    let combined := (d.1, d.2.1) :: admins.map (fun a => (a.1, a.2.1))
    if combined.isEmpty then rule_b cnt admins rest
    else
      mk_path cnt "Internal Recon Lead via Debug Info"
        ("The debug page located at \x27" ++ d.2.1 ++
          "\x27 reveals internal configurations and exposed admin panels.")
        (combined.map Prod.fst) 60 :: rule_b (cnt + 1) admins rest

/-- Rule C: one path per SQLi point; combined is the SQLi entry followed by
every auth endpoint. -/
def rule_c (cnt : Nat) (auths : List BucketEntry) : List BucketEntry → List AttackPath
  | [] => []
  | s :: rest =>
    let combined := (s.1, s.2.1) :: auths.map (fun a => (a.1, a.2.1))
    if combined.isEmpty then rule_c cnt auths rest
    else
      mk_path cnt "Database Breach to Session Stealing"
        ("SQL Injection at \x27" ++ s.2.1 ++
          "\x27 combined with access to login endpoints allows credential leaks leading to impersonation attacks.")
        (combined.map Prod.fst) 95 :: rule_c (cnt + 1) auths rest

/-- synthesize_attack_paths from chainsynthesizer.py.  The first component is
the findings sequence after the loop wrote endpoint-idx into every record
(the in-place mutation of the Python list); the second is the returned path
list, with ids numbered by the running count across the three rules. -/
def synthesize_attack_paths (scan_results : List Finding) : List Finding × List AttackPath :=
  let b := bucketize scan_results
  let mutated := set_endpoint_indices 0 scan_results
  let pa := rule_a 0 b.auth_endpoints b.uploads
  let pb := rule_b pa.length b.exposed_admins b.debug_pages
  let pc := rule_c (pa.length + pb.length) b.auth_endpoints b.sqli_points
  (mutated, pa ++ pb ++ pc)

/-- Terminal state of one tool subprocess, as the harness can observe it:
the binary is missing from PATH, the spawn raced into FileNotFoundError,
the bounded wait expired, or the process completed with an exit code and
stdout lines. -/
inductive ToolOutcome where
  | notInstalled
  | fileNotFound
  | timedOut
  | completed (exitCode : Int) (stdoutLines : List String)
deriving DecidableEq

/-- The exceptions run_tool can raise: ToolExecutionError (the only one
run_all_tools catches), subprocess.TimeoutExpired, json.JSONDecodeError from
the nuclei parser, and KeyError from the TOOLS lookup. -/
inductive ToolError where
  | toolExecutionError (message : String)
  | timeoutExpired
  | jsonDecodeError
  | keyError
deriving DecidableEq

/-- One parsed finding in the merged map: a decoded JSON record for nuclei, a
subdomain dict for amass, a path dict for ffuf. -/
inductive ToolFinding (J : Type) where
  | record (j : J)
  | subdomain (s : String)
  | dirpath (p : String)
deriving DecidableEq

/-- Python truthiness of line.strip() used by all three parsers. -/
def nonEmptyAfterStrip (l : String) : Bool := !(stripStr l).data.isEmpty

/-- json.loads applied to each line in sequence, failing at the first
undecodable line, as the nuclei list comprehension in TOOLS does. -/
def decode_lines {J : Type} (decode : String → Option J) : List String → Option (List J)
  | [] => some []
  | l :: rest =>
    match decode l, decode_lines decode rest with
    | some j, some js => some (j :: js)
    | _, _ => none

/-- The per-tool parser from the TOOLS table applied to the stdout lines.
The nuclei entry decodes each kept raw line as JSON and raises on failure;
amass and ffuf wrap each stripped line into a one-key dict. -/
def parse_stdout {J : Type} (tool_name : String) (decode : String → Option J)
    (lines : List String) : Except ToolError (List (ToolFinding J)) :=
  if tool_name = "nuclei" then
    match decode_lines decode (lines.filter nonEmptyAfterStrip) with
    | some js => .ok (js.map ToolFinding.record)
    | none => .error .jsonDecodeError
  else if tool_name = "amass" then
    .ok ((lines.filter nonEmptyAfterStrip).map (fun l => ToolFinding.subdomain (stripStr l)))
  else
    .ok ((lines.filter nonEmptyAfterStrip).map (fun l => ToolFinding.dirpath (stripStr l)))

/-- The configured tool set, in the iteration order of the TOOLS dict. -/
def toolNames : List String := ["nuclei", "amass", "ffuf"]

/-- run_tool from tools/runner.py.  The environment function stands for the
subprocess world: it fixes, per tool, which terminal state the invocation
reaches.  An unknown tool name raises KeyError at the TOOLS lookup; a
missing binary returns the tool keyed to an empty list; a timeout raises
TimeoutExpired; an exit code outside zero and one raises
ToolExecutionError; otherwise the stdout is parsed. -/
def run_tool {J : Type} (decode : String → Option J) (env : String → ToolOutcome)
    (tool_name : String) : Except ToolError (String × List (ToolFinding J)) :=
  if tool_name = "nuclei" ∨ tool_name = "amass" ∨ tool_name = "ffuf" then
    match env tool_name with
    | .notInstalled => .ok (tool_name, [])
    | .fileNotFound => .error (.toolExecutionError ("Missing tool binary: " ++ tool_name))
    | .timedOut => .error .timeoutExpired
    | .completed code lines =>
      if code ≠ 0 ∧ code ≠ 1 then
        .error (.toolExecutionError (tool_name ++ " exited with a non-accepted code"))
      else
        (parse_stdout tool_name decode lines).map (fun v => (tool_name, v))
  else .error .keyError

/-- The loop body of run_all_tools: try each tool in order, merge successes,
swallow only ToolExecutionError, and let every other exception escape. -/
def run_all_tools_aux {J : Type} (decode : String → Option J) (env : String → ToolOutcome) :
    List String → List (String × List (ToolFinding J)) →
    Except ToolError (List (String × List (ToolFinding J)))
  | [], merged => .ok merged
  | t :: ts, merged =>
    match run_tool decode env t with
    | .ok kv => run_all_tools_aux decode env ts (merged ++ [kv])
    | .error (.toolExecutionError _) => run_all_tools_aux decode env ts merged
    | .error e => .error e

/-- run_all_tools from tools/runner.py: iterate the configured tools
sequentially and merge their keyed results. -/
def run_all_tools {J : Type} (decode : String → Option J) (env : String → ToolOutcome) :
    Except ToolError (List (String × List (ToolFinding J))) :=
  run_all_tools_aux decode env toolNames []

/-- The stdout interpretation loop at the end of run_nuclei_scan in
scanner/nuclei_runner.py: strip each captured line, skip blank ones, decode
the rest, and collect undecodable lines into the skipped list instead of
failing. -/
def parse_scan_output {J : Type} (decode : String → Option J) :
    List String → List J × List String
  | [] => ([], [])
  | raw :: rest =>
    let line := stripStr raw
    let r := parse_scan_output decode rest
    if line.data.isEmpty then r
    else
      match decode line with
      | some j => (j :: r.1, r.2)
      | none => (r.1, line :: r.2)

/-- The diagnostic run_nuclei_scan prints when lines were skipped: the count
of skipped lines and the last one. -/
def skipped_diagnostic {J : Type} (decode : String → Option J) (lines : List String) :
    Option (Nat × String) :=
  let sk := (parse_scan_output decode lines).2
  match sk.getLast? with
  | some l => some (sk.length, l)
  | none => none

/-- The closed set of roles determine_endpoint_role can produce. -/
def ROLE_SET : List String :=
  ["Login/Auth Endpoint", "Admin Panel", "File Upload", "Status Checker/API Gate",
   "API Endpoint", "Database Service", "Debug/Logging"]

/-- Any role produced by the path fast-path is one of four strings; in
particular the basic-auth branch can never fire, because a path containing
the basic-auth literal also contains the auth literal and the first branch
already returned. -/
theorem role_from_path_mem {p r : String} (h : role_from_path p = some r) :
    r ∈ ["Login/Auth Endpoint", "Admin Panel", "File Upload", "Status Checker/API Gate"] := by
  unfold role_from_path at h
  split_ifs at h <;>
    first
    | exact Option.noConfusion h
    | (rw [← Option.some.inj h]; decide)
    | (have h2 := ‹¬(strContains p "login" || strContains p "auth") = true›
       have h5 := ‹strContains p "/basic-auth" = true›
       simp only [Bool.or_eq_true, not_or] at h2
       exact absurd (strContains_trans (by decide) h5) h2.2)

theorem determine_role_path_eq {f : Finding} {r : String}
    (h : role_from_path (toLowerStr (f.matchedAt.getD "")) = some r) :
    determine_endpoint_role f = r := by
  unfold determine_endpoint_role
  dsimp only []
  rw [h]

theorem determine_role_table_eq {f : Finding} {pr : String × List String}
    (h0 : role_from_path (toLowerStr (f.matchedAt.getD "")) = none)
    (h1 : ROLE_PATTERNS.find?
        (fun p => text_contains (collect_text f).1 p.2 (collect_text f).2) = some pr) :
    determine_endpoint_role f = pr.1 := by
  unfold determine_endpoint_role
  dsimp only []
  rw [h0, h1]

theorem determine_role_residual_eq {f : Finding}
    (h0 : role_from_path (toLowerStr (f.matchedAt.getD "")) = none)
    (h1 : ROLE_PATTERNS.find?
        (fun p => text_contains (collect_text f).1 p.2 (collect_text f).2) = none) :
    determine_endpoint_role f =
      (if strContains (collect_text f).1 "api" || strContains (collect_text f).1 "graphql"
        then "API Endpoint"
       else if strContains (collect_text f).1 "database" || strContains (collect_text f).1 "sql"
        then "Database Service"
       else "Debug/Logging") := by
  unfold determine_endpoint_role
  dsimp only []
  rw [h0, h1]

/-- Every classified finding receives a role from the closed role set. -/
theorem determine_endpoint_role_mem (f : Finding) : determine_endpoint_role f ∈ ROLE_SET := by
  cases hrp : role_from_path (toLowerStr (f.matchedAt.getD "")) with
  | some r =>
    rw [determine_role_path_eq hrp]
    have hsub : ∀ r ∈ ["Login/Auth Endpoint", "Admin Panel", "File Upload",
        "Status Checker/API Gate"], r ∈ ROLE_SET := by decide
    exact hsub r (role_from_path_mem hrp)
  | none =>
    cases hf : ROLE_PATTERNS.find?
        (fun p => text_contains (collect_text f).1 p.2 (collect_text f).2) with
    | some pr =>
      rw [determine_role_table_eq hrp hf]
      have hall : ∀ q ∈ ROLE_PATTERNS, q.1 ∈ ROLE_SET := by decide
      exact hall pr (List.mem_of_find?_eq_some hf)
    | none =>
      rw [determine_role_residual_eq hrp hf]
      split_ifs <;> decide

/-- Claim C7: the path fast-path always wins over the keyword table: a
finding whose lower-cased matched-at URL contains the login literal is
classified Login/Auth Endpoint regardless of every other field, including
tags that suggest an admin panel.  The classifier assigns exactly one role
by construction, being a total function into String. -/
theorem claim_C7_fastpath (f : Finding)
    (h : strContains (toLowerStr (f.matchedAt.getD "")) "login" = true) :
    determine_endpoint_role f = "Login/Auth Endpoint" := by
  apply determine_role_path_eq
  unfold role_from_path
  rw [if_neg (strContains_ne_empty (by decide) h)]
  rw [if_pos (by simp [h])]

/-- Concrete instance for claim C7: an upper-case LOGIN URL with admin tags
and an admin-flavored name still classifies as Login/Auth Endpoint. -/
def fW7 : Finding :=
  { matchedAt := some "https://EXAMPLE.com/LOGIN", tags := ["admin"],
    info := some { name := some "Admin Console" } }

theorem claim_C7_witness : determine_endpoint_role fW7 = "Login/Auth Endpoint" :=
  claim_C7_fastpath fW7 (by decide)

/-- Claim C10: the classifier never returns the Auth Endpoint role (its
basic-auth fast-path branch is unreachable) and the produced role set is
exactly the seven-element ROLE_SET. -/
theorem claim_C10_closed (f : Finding) :
    determine_endpoint_role f ∈ ROLE_SET ∧ determine_endpoint_role f ≠ "Auth Endpoint" := by
  refine ⟨determine_endpoint_role_mem f, fun heq => ?_⟩
  have h := determine_endpoint_role_mem f
  rw [heq] at h
  exact absurd h (by decide)

theorem mem_addLabel_self (l : List String) (a : String) : a ∈ addLabel l a := by
  unfold addLabel
  split
  · exact List.mem_of_elem_eq_true ‹_›
  · exact List.mem_append_right _ (List.mem_singleton_self a)

/-- Claim C3 (amended): infer_insights appends the Sensitive Role tag
whenever a non-empty role other than the literal General Endpoint string is
assigned; since determine_endpoint_role never returns General Endpoint,
every finding with a classifier-assigned role receives the tag, including
findings holding the generic default role Debug/Logging. -/
theorem claim_C3_guard :
    (∀ (tid : Option String) (f : Finding) (r : String),
        f.arcanumRole = some r → r ≠ "" → r ≠ "General Endpoint" →
        ("Sensitive Role: " ++ r) ∈ infer_insights tid f)
    ∧ (∀ f : Finding, determine_endpoint_role f ≠ "General Endpoint") := by
  constructor
  · intro tid f r harc hr1 hr2
    unfold infer_insights
    dsimp only []
    rw [harc]
    dsimp only []
    rw [if_pos ⟨hr1, hr2⟩]
    exact mem_addLabel_self _ _
  · intro f hEq
    have h := determine_endpoint_role_mem f
    rw [hEq] at h
    exact absurd h (by decide)

/-- A finding carrying the generic default role, with no other signal. -/
def debugRoleFinding : Finding := { arcanumRole := some "Debug/Logging" }

/-- Counterexample to claim C3 as stated: a finding whose assigned role is
the generic default Debug/Logging does receive a Sensitive Role tag, because
the code guards against the dead General Endpoint string instead. -/
theorem cex_C3 : infer_insights none debugRoleFinding = ["Sensitive Role: Debug/Logging"] := by
  decide

theorem claim_C3_witness :
    ("Sensitive Role: " ++ "Debug/Logging") ∈ infer_insights none debugRoleFinding :=
  claim_C3_guard.1 none debugRoleFinding "Debug/Logging" rfl (by decide) (by decide)

/-- A finding already routed to one of the four role buckets by the if/elif
chain of synthesize_attack_paths. -/
def role_bucketed (f : Finding) : Bool :=
  bucket_role f == "Login/Auth Endpoint" || bucket_role f == "File Upload" ||
    bucket_role f == "Admin Panel" || bucket_role f == "Debug/Logging"

/-- The SQLi criterion of the final elif branch: the display name contains
the sql injection literal (case-insensitively) or the tags include sqli. -/
def sqli_candidate (f : Finding) : Bool :=
  strContains (toLowerStr (bucket_name f)) "sql injection" || f.tags.contains "sqli"

theorem bucketizeAux_sqli (fs : List Finding) : ∀ k : Nat,
    (bucketizeAux k fs).sqli_points =
      ((List.enumFrom k fs).filter (fun p => !role_bucketed p.2 && sqli_candidate p.2)).map
        (fun p => (p.1, bucket_endpoint p.2, bucket_name p.2)) := by
  induction fs with
  | nil => intro k; rfl
  | cons f rest ih =>
    intro k
    simp only [bucketizeAux, List.enumFrom_cons, List.filter_cons]
    split_ifs with h1 h2 h3 h4 h5 <;>
      simp_all [role_bucketed, sqli_candidate, bucket_endpoint, bucket_name]

/-- Claim C2 (amended): the SQLi Points bucket holds exactly the findings
whose role lands in none of the four role buckets and which meet the SQLi
criterion; because the SQLi test sits in the final elif branch, a finding
bucketed by role (such as a Login/Auth Endpoint finding named SQL Injection)
is excluded from the SQLi bucket and never feeds Rule C. -/
theorem claim_C2_sqli_bucket (fs : List Finding) :
    (bucketize fs).sqli_points =
      (fs.enum.filter (fun p => !role_bucketed p.2 && sqli_candidate p.2)).map
        (fun p => (p.1, bucket_endpoint p.2, bucket_name p.2)) :=
  bucketizeAux_sqli fs 0

/-- A finding with role Login/Auth Endpoint whose name contains SQL
Injection and whose tags include sqli. -/
def authSqlFinding : Finding :=
  { arcanumRole := some "Login/Auth Endpoint", matchedAt := some "http://t/login",
    info := some { name := some "SQL Injection" }, tags := ["sqli"] }

/-- Counterexample to claim C2 as stated: the auth-role SQL Injection
finding lands only in the Auth bucket, the SQLi bucket stays empty, and no
Rule C path is emitted for it. -/
theorem cex_C2 :
    (bucketize [authSqlFinding]).sqli_points = [] ∧
    (bucketize [authSqlFinding]).auth_endpoints = [(0, "http://t/login", "SQL Injection")] ∧
    (synthesize_attack_paths [authSqlFinding]).2 = [] := by decide

theorem set_endpoint_indices_eq (fs : List Finding) : ∀ k : Nat,
    set_endpoint_indices k fs =
      (List.enumFrom k fs).map (fun p => { p.2 with endpointIdx := some p.1 }) := by
  induction fs with
  | nil => intro k; rfl
  | cons f rest ih => intro k; simp [set_endpoint_indices, List.enumFrom_cons, ih]

/-- Claim C4 (amended): synthesize_attack_paths is deterministic given the
input order, but it is not frame-pure: it writes the endpoint-idx field
(set to the position) into every input finding, and that is the only
mutation, as the structure-update equation shows. -/
theorem claim_C4_mutation (fs : List Finding) :
    (synthesize_attack_paths fs).1 = fs.enum.map (fun p => { p.2 with endpointIdx := some p.1 }) :=
  set_endpoint_indices_eq fs 0

/-- A finding record with every optional field absent. -/
def emptyFinding : Finding := {}

/-- Counterexample to claim C4 as stated: after the call the input finding
has gained an endpoint-idx field, so the input is not left unchanged. -/
theorem cex_C4 : (synthesize_attack_paths [emptyFinding]).1 ≠ [emptyFinding] := by decide

theorem rule_a_inner_names (u : BucketEntry) (auths : List BucketEntry) : ∀ cnt : Nat,
    ∀ p ∈ rule_a_inner cnt u auths, p.name = "Web Shell via Weak Auth" := by
  induction auths with
  | nil => intro cnt p hp; cases hp
  | cons a rest ih =>
    intro cnt p hp
    rcases List.mem_cons.mp hp with rfl | hp
    · rfl
    · exact ih (cnt + 1) p hp

theorem rule_a_names (auths us : List BucketEntry) : ∀ cnt : Nat,
    ∀ p ∈ rule_a cnt auths us, p.name = "Web Shell via Weak Auth" := by
  induction us with
  | nil => intro cnt p hp; cases hp
  | cons u rest ih =>
    intro cnt p hp
    rcases List.mem_append.mp hp with hp | hp
    · exact rule_a_inner_names u auths cnt p hp
    · exact ih _ p hp

theorem rule_b_names (admins ds : List BucketEntry) : ∀ cnt : Nat,
    ∀ p ∈ rule_b cnt admins ds, p.name = "Internal Recon Lead via Debug Info" := by
  induction ds with
  | nil => intro cnt p hp; cases hp
  | cons d rest ih =>
    intro cnt p hp
    simp only [rule_b, List.isEmpty_cons, if_false, Bool.false_eq_true] at hp
    rcases List.mem_cons.mp hp with rfl | hp
    · rfl
    · exact ih _ p hp

theorem rule_c_names (auths ds : List BucketEntry) : ∀ cnt : Nat,
    ∀ p ∈ rule_c cnt auths ds, p.name = "Database Breach to Session Stealing" := by
  induction ds with
  | nil => intro cnt p hp; cases hp
  | cons s rest ih =>
    intro cnt p hp
    simp only [rule_c, List.isEmpty_cons, if_false, Bool.false_eq_true] at hp
    rcases List.mem_cons.mp hp with rfl | hp
    · rfl
    · exact ih _ p hp

theorem rule_b_proj (admins ds : List BucketEntry) : ∀ cnt : Nat,
    (rule_b cnt admins ds).map (fun p => (p.steps, p.risk_score)) =
      ds.map (fun d => (d.1 :: admins.map (fun a => a.1), 60)) := by
  induction ds with
  | nil => intro cnt; rfl
  | cons d rest ih =>
    intro cnt
    simp only [rule_b, List.isEmpty_cons, if_false, Bool.false_eq_true, List.map_cons]
    rw [ih (cnt + 1)]
    simp [mk_path, List.map_map, Function.comp]

theorem synthesize_paths_eq (fs : List Finding) :
    (synthesize_attack_paths fs).2 =
      rule_a 0 (bucketize fs).auth_endpoints (bucketize fs).uploads ++
      rule_b (rule_a 0 (bucketize fs).auth_endpoints (bucketize fs).uploads).length
        (bucketize fs).exposed_admins (bucketize fs).debug_pages ++
      rule_c ((rule_a 0 (bucketize fs).auth_endpoints (bucketize fs).uploads).length +
          (rule_b (rule_a 0 (bucketize fs).auth_endpoints (bucketize fs).uploads).length
            (bucketize fs).exposed_admins (bucketize fs).debug_pages).length)
        (bucketize fs).auth_endpoints (bucketize fs).sqli_points := rfl

/-- Claim C8: the Rule B output is fully characterized: the paths named
Internal Recon Lead via Debug Info are exactly one per debug-page finding,
each with steps equal to the debug index followed by every Admin Panel
index and risk score 60; in particular, an input with exactly one
Debug/Logging bucket entry and no Admin Panel entries yields exactly one
such path whose steps list is the single debug index. -/
theorem claim_C8_rule_b :
    (∀ fs : List Finding,
        (((synthesize_attack_paths fs).2.filter
              (fun p => p.name == "Internal Recon Lead via Debug Info")).map
            (fun p => (p.steps, p.risk_score)))
          = (bucketize fs).debug_pages.map
              (fun d => (d.1 :: (bucketize fs).exposed_admins.map (fun a => a.1), 60)))
    ∧ (∀ (fs : List Finding) (d : BucketEntry),
        (bucketize fs).debug_pages = [d] → (bucketize fs).exposed_admins = [] →
        (((synthesize_attack_paths fs).2.filter
              (fun p => p.name == "Internal Recon Lead via Debug Info")).map
            (fun p => (p.steps, p.risk_score))) = [([d.1], 60)]) := by
  have hgen : ∀ fs : List Finding,
      (((synthesize_attack_paths fs).2.filter
            (fun p => p.name == "Internal Recon Lead via Debug Info")).map
          (fun p => (p.steps, p.risk_score)))
        = (bucketize fs).debug_pages.map
            (fun d => (d.1 :: (bucketize fs).exposed_admins.map (fun a => a.1), 60)) := by
    intro fs
    rw [synthesize_paths_eq, List.filter_append, List.filter_append]
    have hA : (rule_a 0 (bucketize fs).auth_endpoints (bucketize fs).uploads).filter
        (fun p => p.name == "Internal Recon Lead via Debug Info") = [] := by
      rw [List.filter_eq_nil_iff]
      intro p hp
      simp [rule_a_names _ _ _ p hp]
    have hC : (rule_c ((rule_a 0 (bucketize fs).auth_endpoints (bucketize fs).uploads).length +
          (rule_b (rule_a 0 (bucketize fs).auth_endpoints (bucketize fs).uploads).length
            (bucketize fs).exposed_admins (bucketize fs).debug_pages).length)
          (bucketize fs).auth_endpoints (bucketize fs).sqli_points).filter
        (fun p => p.name == "Internal Recon Lead via Debug Info") = [] := by
      rw [List.filter_eq_nil_iff]
      intro p hp
      simp [rule_c_names _ _ _ p hp]
    have hB : (rule_b (rule_a 0 (bucketize fs).auth_endpoints (bucketize fs).uploads).length
          (bucketize fs).exposed_admins (bucketize fs).debug_pages).filter
        (fun p => p.name == "Internal Recon Lead via Debug Info") =
        rule_b (rule_a 0 (bucketize fs).auth_endpoints (bucketize fs).uploads).length
          (bucketize fs).exposed_admins (bucketize fs).debug_pages := by
      rw [List.filter_eq_self]
      intro p hp
      simp [rule_b_names _ _ _ p hp]
    rw [hA, hB, hC, List.append_nil, List.nil_append]
    exact rule_b_proj _ _ _
  refine ⟨hgen, fun fs d h1 h2 => ?_⟩
  rw [hgen fs, h1, h2]
  rfl

theorem claim_C8_witness :
    (((synthesize_attack_paths [debugRoleFinding]).2.filter
          (fun p => p.name == "Internal Recon Lead via Debug Info")).map
        (fun p => (p.steps, p.risk_score))) = [([0], 60)] :=
  claim_C8_rule_b.2 [debugRoleFinding] (0, "", "Unnamed") (by decide) (by decide)

/-- All five bucket lists of bucketizeAux carry indices below the start
index plus the number of findings walked. -/
def buckets_bound (b : Buckets) (n : Nat) : Prop :=
  (∀ e ∈ b.auth_endpoints, e.1 < n) ∧ (∀ e ∈ b.uploads, e.1 < n) ∧
    (∀ e ∈ b.sqli_points, e.1 < n) ∧ (∀ e ∈ b.exposed_admins, e.1 < n) ∧
    (∀ e ∈ b.debug_pages, e.1 < n)

theorem bucketizeAux_bound (fs : List Finding) : ∀ k : Nat,
    buckets_bound (bucketizeAux k fs) (k + fs.length) := by
  induction fs with
  | nil =>
    intro k
    refine ⟨?_, ?_, ?_, ?_, ?_⟩ <;> (intro e he; cases he)
  | cons f rest ih =>
    intro k
    obtain ⟨hb1, hb2, hb3, hb4, hb5⟩ := ih (k + 1)
    have harith : k + 1 + rest.length = k + (f :: rest).length := by simp; omega
    rw [harith] at hb1 hb2 hb3 hb4 hb5
    have hk : k < k + (f :: rest).length := by simp
    simp only [bucketizeAux]
    split_ifs <;>
      refine ⟨?_, ?_, ?_, ?_, ?_⟩ <;> intro e he <;>
        first
        | exact hb1 e he
        | exact hb2 e he
        | exact hb3 e he
        | exact hb4 e he
        | exact hb5 e he
        | (rcases List.mem_cons.mp he with rfl | hrest
           · exact hk
           · first
             | exact hb1 e hrest
             | exact hb2 e hrest
             | exact hb3 e hrest
             | exact hb4 e hrest
             | exact hb5 e hrest)

theorem rule_a_inner_steps {n : Nat} (u : BucketEntry) (auths : List BucketEntry)
    (hu : u.1 < n) (ha : ∀ e ∈ auths, e.1 < n) : ∀ cnt : Nat,
    ∀ p ∈ rule_a_inner cnt u auths, ∀ i ∈ p.steps, i < n := by
  induction auths with
  | nil => intro cnt p hp; cases hp
  | cons a rest ih =>
    intro cnt p hp i hi
    rcases List.mem_cons.mp hp with rfl | hp
    · rcases List.mem_cons.mp hi with rfl | hi
      · exact hu
      · rcases List.mem_cons.mp hi with rfl | hi
        · exact ha a (List.mem_cons_self a rest)
        · cases hi
    · exact ih (fun e he => ha e (List.mem_cons_of_mem a he)) (cnt + 1) p hp i hi

theorem rule_a_steps {n : Nat} (auths us : List BucketEntry)
    (ha : ∀ e ∈ auths, e.1 < n) (hus : ∀ e ∈ us, e.1 < n) : ∀ cnt : Nat,
    ∀ p ∈ rule_a cnt auths us, ∀ i ∈ p.steps, i < n := by
  induction us with
  | nil => intro cnt p hp; cases hp
  | cons u rest ih =>
    intro cnt p hp
    rcases List.mem_append.mp hp with hp | hp
    · exact rule_a_inner_steps u auths (hus u (List.mem_cons_self u rest))
        (fun e he => ha e he) cnt p hp
    · exact ih (fun e he => hus e (List.mem_cons_of_mem u he)) _ p hp

theorem rule_b_steps {n : Nat} (admins ds : List BucketEntry)
    (ha : ∀ e ∈ admins, e.1 < n) (hd : ∀ e ∈ ds, e.1 < n) : ∀ cnt : Nat,
    ∀ p ∈ rule_b cnt admins ds, ∀ i ∈ p.steps, i < n := by
  induction ds with
  | nil => intro cnt p hp; cases hp
  | cons d rest ih =>
    intro cnt p hp i hi
    simp only [rule_b, List.isEmpty_cons, if_false, Bool.false_eq_true] at hp
    rcases List.mem_cons.mp hp with rfl | hp
    · simp only [mk_path, List.map_cons, List.map_map] at hi
      rcases List.mem_cons.mp hi with rfl | hi
      · exact hd d (List.mem_cons_self d rest)
      · simp only [List.mem_map, Function.comp] at hi
        obtain ⟨a, haMem, rfl⟩ := hi
        exact ha a haMem
    · exact ih (fun e he => hd e (List.mem_cons_of_mem d he)) _ p hp i hi

theorem rule_c_steps {n : Nat} (auths ds : List BucketEntry)
    (ha : ∀ e ∈ auths, e.1 < n) (hd : ∀ e ∈ ds, e.1 < n) : ∀ cnt : Nat,
    ∀ p ∈ rule_c cnt auths ds, ∀ i ∈ p.steps, i < n := by
  induction ds with
  | nil => intro cnt p hp; cases hp
  | cons s rest ih =>
    intro cnt p hp i hi
    simp only [rule_c, List.isEmpty_cons, if_false, Bool.false_eq_true] at hp
    rcases List.mem_cons.mp hp with rfl | hp
    · simp only [mk_path, List.map_cons, List.map_map] at hi
      rcases List.mem_cons.mp hi with rfl | hi
      · exact hd s (List.mem_cons_self s rest)
      · simp only [List.mem_map, Function.comp] at hi
        obtain ⟨a, haMem, rfl⟩ := hi
        exact ha a haMem
    · exact ih (fun e he => hd e (List.mem_cons_of_mem s he)) _ p hp i hi

/-- Claim C9: every step entry of every synthesized attack path is a valid
index into the classified-findings sequence passed to the same call, and an
empty input produces an empty path sequence. -/
theorem claim_C9_steps_valid :
    (∀ (fs : List Finding) (p : AttackPath), p ∈ (synthesize_attack_paths fs).2 →
        ∀ i ∈ p.steps, i < fs.length)
    ∧ (synthesize_attack_paths ([] : List Finding)).2 = [] := by
  constructor
  · intro fs p hp i hi
    obtain ⟨hb1, hb2, hb3, hb4, hb5⟩ := bucketizeAux_bound fs 0
    rw [Nat.zero_add] at hb1 hb2 hb3 hb4 hb5
    rw [synthesize_paths_eq] at hp
    rcases List.mem_append.mp hp with hab | hc
    · rcases List.mem_append.mp hab with ha | hb
      · exact rule_a_steps _ _ hb1 hb2 _ p ha i hi
      · exact rule_b_steps _ _ hb4 hb5 _ p hb i hi
    · exact rule_c_steps _ _ hb1 hb3 _ p hc i hi
  · rfl

theorem claim_C9_witness : (0 : Nat) < ([debugRoleFinding] : List Finding).length :=
  claim_C9_steps_valid.1 [debugRoleFinding]
    { id := "path_1", name := "Internal Recon Lead via Debug Info",
      description := "The debug page located at \x27\x27 reveals internal configurations and exposed admin panels.",
      steps := [0], risk_score := 60 }
    (by decide) 0 (by decide)

/-- A run_tool result escapes run_all_tools (true) rather than being merged
or swallowed: only ToolExecutionError is caught by the orchestrator loop. -/
def propagates {J : Type} (r : Except ToolError (String × List (ToolFinding J))) : Bool :=
  match r with
  | .error (.toolExecutionError _) => false
  | .error _ => true
  | .ok _ => false

/-- The contribution of one tool to the merged map: its keyed result when
run_tool succeeds, nothing when it raises. -/
def tool_entry {J : Type} (decode : String → Option J) (env : String → ToolOutcome)
    (t : String) : Option (String × List (ToolFinding J)) :=
  match run_tool decode env t with
  | .ok kv => some kv
  | .error _ => none

theorem run_all_aux_ok {J : Type} (decode : String → Option J) (env : String → ToolOutcome) :
    ∀ (ts : List String) (acc : List (String × List (ToolFinding J))),
    (∀ t ∈ ts, propagates (run_tool decode env t) = false) →
    run_all_tools_aux decode env ts acc = .ok (acc ++ ts.filterMap (tool_entry decode env)) := by
  intro ts
  induction ts with
  | nil => intro acc h; simp [run_all_tools_aux]
  | cons t ts ih =>
    intro acc h
    have ht := h t (List.mem_cons_self t ts)
    have hts : ∀ u ∈ ts, propagates (run_tool decode env u) = false :=
      fun u hu => h u (List.mem_cons_of_mem t hu)
    cases hrt : run_tool decode env t with
    | ok kv =>
      simp only [run_all_tools_aux, hrt]
      rw [ih (acc ++ [kv]) hts]
      simp [List.filterMap_cons, tool_entry, hrt]
    | error e =>
      cases e with
      | toolExecutionError m =>
        simp only [run_all_tools_aux, hrt]
        rw [ih acc hts]
        simp [List.filterMap_cons, tool_entry, hrt]
      | timeoutExpired => rw [hrt] at ht; simp [propagates] at ht
      | jsonDecodeError => rw [hrt] at ht; simp [propagates] at ht
      | keyError => rw [hrt] at ht; simp [propagates] at ht

/-- Claim C1 (amended): when no tool invocation raises a propagating
exception (timeout or a JSON decode failure inside the configured nuclei
parser), run_all_tools returns the merged map built tool by tool, where a
not-installed tool contributes its key with an empty finding list but a
tool raising ToolExecutionError (exit code outside zero and one, or a spawn
race) is omitted from the map entirely; a timed-out tool instead makes the
whole call raise, as the counterexample shows. -/
theorem claim_C1_failure_policy {J : Type} (decode : String → Option J) (env : String → ToolOutcome)
    (h : ∀ t ∈ toolNames, propagates (run_tool decode env t) = false) :
    run_all_tools decode env = .ok (toolNames.filterMap (tool_entry decode env))
    ∧ ∀ t ∈ toolNames, env t = .notInstalled →
        (t, ([] : List (ToolFinding J))) ∈ toolNames.filterMap (tool_entry decode env) := by
  constructor
  · have haux := run_all_aux_ok decode env toolNames [] h
    simpa [run_all_tools] using haux
  · intro t ht hni
    rw [List.mem_filterMap]
    refine ⟨t, ht, ?_⟩
    have hname : t = "nuclei" ∨ t = "amass" ∨ t = "ffuf" := by simpa [toolNames] using ht
    unfold tool_entry run_tool
    rw [if_pos hname, hni]

/-- A decoder accepting every line, standing for well-formed JSON stdout. -/
def decW1 : String → Option Unit := fun _ => some ()

/-- Environment for the claim C1 witness: nuclei missing from PATH, amass
completing cleanly with one line, ffuf failing with exit code two. -/
def envW1 : String → ToolOutcome := fun t =>
  if t = "nuclei" then .notInstalled
  else if t = "amass" then .completed 0 [" a "]
  else .completed 2 []

theorem claim_C1_witness :
    run_all_tools decW1 envW1 = .ok (toolNames.filterMap (tool_entry decW1 envW1)) :=
  (claim_C1_failure_policy decW1 envW1 (by decide)).1

/-- Environment in which nuclei times out while the other tools are fine. -/
def envCex1 : String → ToolOutcome := fun t =>
  if t = "nuclei" then .timedOut else .completed 0 []

/-- Counterexample to claim C1 as stated: with one tool timed out the call
raises TimeoutExpired instead of returning a map with all configured keys,
because run_all_tools only catches ToolExecutionError. -/
theorem cex_C1 : run_all_tools decW1 envCex1 = .error .timeoutExpired := rfl

/-- Whether an Except value is a success. -/
def isOkB {ε α : Type} (r : Except ε α) : Bool :=
  match r with
  | .ok _ => true
  | .error _ => false

theorem run_tool_timeout {J : Type} (decode : String → Option J) (env : String → ToolOutcome)
    (t : String) (ht : t ∈ toolNames) (hto : env t = .timedOut) :
    run_tool decode env t = .error .timeoutExpired := by
  have hname : t = "nuclei" ∨ t = "amass" ∨ t = "ffuf" := by simpa [toolNames] using ht
  unfold run_tool
  rw [if_pos hname, hto]

theorem run_all_aux_timeout {J : Type} (decode : String → Option J) (env : String → ToolOutcome) :
    ∀ (ts : List String) (acc : List (String × List (ToolFinding J))) (t : String),
    t ∈ ts → t ∈ toolNames → env t = .timedOut →
    isOkB (run_all_tools_aux decode env ts acc) = false := by
  intro ts
  induction ts with
  | nil => intro acc t h; cases h
  | cons u ts ih =>
    intro acc t hmem htn hto
    rcases List.mem_cons.mp hmem with rfl | hts
    · simp only [run_all_tools_aux, run_tool_timeout decode env t htn hto]
      rfl
    · cases hrt : run_tool decode env u with
      | ok kv =>
        simp only [run_all_tools_aux, hrt]
        exact ih _ t hts htn hto
      | error e =>
        cases e with
        | toolExecutionError m =>
          simp only [run_all_tools_aux, hrt]
          exact ih _ t hts htn hto
        | timeoutExpired => simp only [run_all_tools_aux, hrt]; rfl
        | jsonDecodeError => simp only [run_all_tools_aux, hrt]; rfl
        | keyError => simp only [run_all_tools_aux, hrt]; rfl

/-- Claim C6 (amended): the orchestrator iterates the configured tools
sequentially, and a per-tool timeout is not contained: if any configured
tool times out, the whole run_all_tools call fails, so sibling invocations
after the timed-out tool never contribute results. -/
theorem claim_C6_timeout_aborts {J : Type} (decode : String → Option J)
    (env : String → ToolOutcome) (t : String)
    (ht : t ∈ toolNames) (hto : env t = .timedOut) :
    isOkB (run_all_tools decode env) = false :=
  run_all_aux_timeout decode env toolNames [] t ht ht hto

/-- Environment for the claim C6 witness: only amass times out. -/
def envW6 : String → ToolOutcome := fun t =>
  if t = "amass" then .timedOut else .completed 0 []

theorem claim_C6_witness : isOkB (run_all_tools decW1 envW6) = false :=
  claim_C6_timeout_aborts decW1 envW6 "amass" (by decide) rfl

/-- Environment in which amass times out while ffuf would have produced a
finding. -/
def envCex6 : String → ToolOutcome := fun t =>
  if t = "nuclei" then .completed 0 []
  else if t = "amass" then .timedOut
  else .completed 0 ["found-dir"]

/-- Counterexample to claim C6 as stated: the amass timeout makes the whole
batch fail, so the healthy sibling ffuf never contributes its finding, in
contradiction with the claim that a timeout never affects siblings. -/
theorem cex_C6 : run_all_tools decW1 envCex6 = .error .timeoutExpired := rfl

theorem parse_scan_count {J : Type} (decode : String → Option J) :
    ∀ lines : List String, (∀ l ∈ lines, nonEmptyAfterStrip l = true) →
    (parse_scan_output decode lines).1.length + (parse_scan_output decode lines).2.length
      = lines.length := by
  intro lines
  induction lines with
  | nil => intro h; rfl
  | cons raw rest ih =>
    intro h
    have hne := h raw (List.mem_cons_self raw rest)
    have hrest := fun l hl => h l (List.mem_cons_of_mem raw hl)
    simp only [parse_scan_output]
    rw [if_neg (by simpa [nonEmptyAfterStrip] using hne)]
    have hih := ih hrest
    cases hd : decode (stripStr raw) <;> simp only [List.length_cons] <;> omega

theorem parse_scan_findings {J : Type} (decode : String → Option J) :
    ∀ lines : List String, (∀ l ∈ lines, nonEmptyAfterStrip l = true) →
    (parse_scan_output decode lines).1 = lines.filterMap (fun l => decode (stripStr l)) := by
  intro lines
  induction lines with
  | nil => intro h; rfl
  | cons raw rest ih =>
    intro h
    have hne := h raw (List.mem_cons_self raw rest)
    have hrest := fun l hl => h l (List.mem_cons_of_mem raw hl)
    simp only [parse_scan_output, List.filterMap_cons]
    rw [if_neg (by simpa [nonEmptyAfterStrip] using hne)]
    cases hd : decode (stripStr raw) <;> simp [hd, ih hrest]

theorem parse_scan_skipped {J : Type} (decode : String → Option J) :
    ∀ lines : List String, (∀ l ∈ lines, nonEmptyAfterStrip l = true) →
    (parse_scan_output decode lines).2 =
      (lines.map stripStr).filter (fun l => (decode l).isNone) := by
  intro lines
  induction lines with
  | nil => intro h; rfl
  | cons raw rest ih =>
    intro h
    have hne := h raw (List.mem_cons_self raw rest)
    have hrest := fun l hl => h l (List.mem_cons_of_mem raw hl)
    simp only [parse_scan_output, List.map_cons, List.filter_cons]
    rw [if_neg (by simpa [nonEmptyAfterStrip] using hne)]
    cases hd : decode (stripStr raw) <;> simp [hd, ih hrest]

theorem skipped_diagnostic_eq {J : Type} (decode : String → Option J) (lines : List String) :
    skipped_diagnostic decode lines =
      ((parse_scan_output decode lines).2.getLast?).map
        (fun l => ((parse_scan_output decode lines).2.length, l)) := by
  unfold skipped_diagnostic
  cases hl : (parse_scan_output decode lines).2.getLast? <;> simp [hl]

/-- Claim C5 (amended): the stdout interpretation loop of run_nuclei_scan is
total and tolerant: on non-empty lines it yields one finding per decodable
line, the finding and skipped counts sum to the line count, the skipped
list collects exactly the undecodable stripped lines in order, and the
printed diagnostic carries their count and the last one.  The configured
nuclei parser of the orchestrator, by contrast, raises on the first
malformed line, as the counterexample shows. -/
theorem claim_C5_tolerant_parse {J : Type} (decode : String → Option J) (lines : List String)
    (h : ∀ l ∈ lines, nonEmptyAfterStrip l = true) :
    (parse_scan_output decode lines).1.length + (parse_scan_output decode lines).2.length
        = lines.length
    ∧ (parse_scan_output decode lines).1 = lines.filterMap (fun l => decode (stripStr l))
    ∧ (parse_scan_output decode lines).2 =
        (lines.map stripStr).filter (fun l => (decode l).isNone)
    ∧ skipped_diagnostic decode lines =
        ((parse_scan_output decode lines).2.getLast?).map
          (fun l => ((parse_scan_output decode lines).2.length, l)) :=
  ⟨parse_scan_count decode lines h, parse_scan_findings decode lines h,
    parse_scan_skipped decode lines h, skipped_diagnostic_eq decode lines⟩

/-- A decoder accepting exactly one known line, standing for a stdout in
which the other lines are malformed JSON. -/
def decW5 : String → Option Unit := fun s => if s = "ok" then some () else none

theorem claim_C5_witness :
    (parse_scan_output decW5 ["ok", "notjson"]).1.length
        + (parse_scan_output decW5 ["ok", "notjson"]).2.length
      = (["ok", "notjson"] : List String).length :=
  (claim_C5_tolerant_parse decW5 ["ok", "notjson"] (by decide)).1

/-- A decoder rejecting every line, standing for malformed JSON stdout. -/
def decN5 : String → Option Unit := fun _ => none

/-- Environment in which nuclei completes successfully but emits one
malformed stdout line. -/
def envCex5 : String → ToolOutcome := fun t =>
  if t = "nuclei" then .completed 0 ["notjson"] else .notInstalled

/-- Counterexample to claim C5 as stated: run through the orchestrator, a
single malformed nuclei stdout line raises a JSON decode error that escapes
run_all_tools and aborts the run, instead of being counted and skipped. -/
theorem cex_C5 : run_all_tools decN5 envCex5 = .error .jsonDecodeError := rfl
